import Mathlib

/-!
Verification of `port_trigger_alert.py`: indicator engine (rolling means,
simple-rolling-mean RSI over pandas float semantics), band trigger
evaluator, and the run orchestrator (`main`).

Floating-point values flowing through the pandas pipeline are embedded as
`PFloat`: a finite rational, NaN, or a signed infinity, with the IEEE-754
behaviour of the operations the script uses (subtraction for `diff`,
clipping, summation and division for rolling means, division for RS, and
the affine RSI formula).  Decimal literals of the script are read as exact
rationals.
-/

/-- A pandas/NumPy double as the script uses it: a finite value (embedded
exactly as a rational), NaN, or a signed infinity. -/
inductive PFloat where
  | fin : ℚ → PFloat
  | nan : PFloat
  | pinf : PFloat
  | ninf : PFloat
deriving DecidableEq

/-- IEEE negation. -/
def PFloat.neg : PFloat → PFloat
  | .fin a => .fin (-a)
  | .nan => .nan
  | .pinf => .ninf
  | .ninf => .pinf

/-- IEEE addition (used by rolling sums). -/
def PFloat.add : PFloat → PFloat → PFloat
  | .fin a, .fin b => .fin (a + b)
  | .nan, _ => .nan
  | _, .nan => .nan
  | .pinf, .ninf => .nan
  | .ninf, .pinf => .nan
  | .pinf, _ => .pinf
  | _, .pinf => .pinf
  | .ninf, _ => .ninf
  | _, .ninf => .ninf

/-- IEEE subtraction, as `a + (-b)` (used by `Series.diff`). -/
def PFloat.sub (a b : PFloat) : PFloat := a.add b.neg

/-- IEEE division (used for `rs = avg_gain / avg_loss`, for `100 / (1+rs)`,
and for the mean's division by the window length); `x/0` is `±inf` for
`x ≠ 0` and NaN for `0/0`, as in NumPy. -/
def PFloat.div : PFloat → PFloat → PFloat
  | .nan, _ => .nan
  | _, .nan => .nan
  | .fin a, .fin b =>
      if b = 0 then (if a = 0 then .nan else if 0 < a then .pinf else .ninf)
      else .fin (a / b)
  | .fin _, _ => .fin 0
  | .pinf, .fin b => if 0 ≤ b then .pinf else .ninf
  | .ninf, .fin b => if 0 ≤ b then .ninf else .pinf
  | _, _ => .nan

/-- The script's `delta.clip(lower=0)`: `max(x, 0)` with NaN passed through. -/
def PFloat.clipLower0 : PFloat → PFloat
  | .fin a => .fin (max a 0)
  | .nan => .nan
  | .pinf => .pinf
  | .ninf => .fin 0

/-- The script's `delta.clip(upper=0)`: `min(x, 0)` with NaN passed through. -/
def PFloat.clipUpper0 : PFloat → PFloat
  | .fin a => .fin (min a 0)
  | .nan => .nan
  | .pinf => .fin 0
  | .ninf => .ninf

/-- IEEE strict less-than: any comparison with NaN is false. -/
def PFloat.lt : PFloat → PFloat → Bool
  | .fin a, .fin b => decide (a < b)
  | .fin _, .pinf => true
  | .fin _, _ => false
  | .nan, _ => false
  | .pinf, _ => false
  | .ninf, .nan => false
  | .ninf, .ninf => false
  | .ninf, _ => true

/-- IEEE less-or-equal: any comparison with NaN is false. -/
def PFloat.le : PFloat → PFloat → Bool
  | .fin a, .fin b => decide (a ≤ b)
  | .fin _, .pinf => true
  | .fin _, _ => false
  | .nan, _ => false
  | .pinf, .pinf => true
  | .pinf, _ => false
  | .ninf, .nan => false
  | .ninf, _ => true

/-- IEEE greater-than, `a > b` is `b < a`. -/
def PFloat.gt (a b : PFloat) : Bool := PFloat.lt b a

/-- The script's `pd.isna(x)`: true exactly on NaN (infinities are NOT na). -/
def PFloat.isna : PFloat → Bool
  | .nan => true
  | _ => false

/-- Window of the `n` values ending at index `i` (the slice pandas
`rolling(n)` averages at row `i`). -/
def windowAt (n : Nat) (xs : List PFloat) (i : Nat) : List PFloat :=
  (xs.take (i + 1)).drop (i + 1 - n)

/-- Arithmetic mean of a list of floats: IEEE sum divided by the length. -/
def pmean (l : List PFloat) : PFloat :=
  (l.foldl PFloat.add (.fin 0)).div (.fin (l.length : ℚ))

/-- Value of `xs.rolling(n).mean()` at row `i`: NaN while fewer than `n`
rows are available, otherwise the mean of the window (which is NaN as soon
as the window holds a NaN, matching pandas' `min_periods` default). -/
def rollingMeanAt (n : Nat) (xs : List PFloat) (i : Nat) : PFloat :=
  if i + 1 < n then .nan else pmean (windowAt n xs i)

/-- The script's `close.diff()`: NaN at row 0, `close[i] - close[i-1]`
afterwards. -/
def diffList (close : List PFloat) : List PFloat :=
  match close with
  | [] => []
  | _ :: rest => .nan :: List.zipWith PFloat.sub rest close

/-- The script's `gain = delta.clip(lower=0)`. -/
def gains (close : List PFloat) : List PFloat :=
  (diffList close).map PFloat.clipLower0

/-- The script's `loss = -delta.clip(upper=0)`. -/
def losses (close : List PFloat) : List PFloat :=
  (diffList close).map (fun d => (PFloat.clipUpper0 d).neg)

/-- Row `i` of the series returned by `calculate_rsi(close, period)`:
`100 - 100 / (1 + rs)` with `rs` the ratio of the rolling means of gains
and losses. -/
def calculate_rsi (close : List PFloat) (period : Nat) (i : Nat) : PFloat :=
  (PFloat.fin 100).sub
    ((PFloat.fin 100).div
      ((PFloat.fin 1).add
        ((rollingMeanAt period (gains close) i).div
          (rollingMeanAt period (losses close) i))))

/-- Trend label assigned by `fetch_indicators`. -/
inductive Trend where
  | Bullish : Trend
  | Bearish : Trend
  | Sideways : Trend
deriving DecidableEq

/-- The `if price > dma20 > dma50 / elif price < dma20 < dma50 / else`
classification of `fetch_indicators` (Python chained comparisons, IEEE
semantics). -/
def mkTrend (price dma20 dma50 : PFloat) : Trend :=
  if price.gt dma20 && dma20.gt dma50 then .Bullish
  else if price.lt dma20 && dma20.lt dma50 then .Bearish
  else .Sideways

/-- The tuple `fetch_indicators` returns for one instrument. -/
structure Snapshot where
  price : PFloat
  dma20 : PFloat
  dma50 : PFloat
  rsi : PFloat
  trend : Trend
deriving DecidableEq

/-- Indicator part of `fetch_indicators`, over the downloaded close series
(the `yf.download` call itself is an external collaborator; `df.empty or
len(df) < 50` collapses to `length < 50`).  Returns `none` (the script's
`None`, i.e. `Unavailable`) on a short series or when any of
price/DMA20/DMA50/RSI at the last row is NaN. -/
def fetch_indicators (close : List PFloat) : Option Snapshot :=
  if close.length < 50 then none
  else if (close.getD (close.length - 1) .nan).isna
      || (rollingMeanAt 20 close (close.length - 1)).isna
      || (rollingMeanAt 50 close (close.length - 1)).isna
      || (calculate_rsi close 14 (close.length - 1)).isna then none
  else some
    { price := close.getD (close.length - 1) .nan
      dma20 := rollingMeanAt 20 close (close.length - 1)
      dma50 := rollingMeanAt 50 close (close.length - 1)
      rsi := calculate_rsi close 14 (close.length - 1)
      trend := mkTrend (close.getD (close.length - 1) .nan)
        (rollingMeanAt 20 close (close.length - 1))
        (rollingMeanAt 50 close (close.length - 1)) }

/-- One `(low, high, qty)` entry of an instrument's `levels` list. -/
structure Band where
  low : ℚ
  high : ℚ
  qty : ℚ
deriving DecidableEq

/-- Outcome of the band scan in `main` for one instrument. -/
inductive TriggerResult where
  | noMatch : TriggerResult
  | matched : Nat → Band → TriggerResult
deriving DecidableEq

/-- Band scan of `main` starting at 1-based index `idx`: first band with
`low ≤ price ≤ high` wins and scanning stops (`break`). -/
def evaluateFrom (price : ℚ) : Nat → List Band → TriggerResult
  | _, [] => .noMatch
  | idx, b :: rest =>
      if b.low ≤ price ∧ price ≤ b.high then .matched idx b
      else evaluateFrom price (idx + 1) rest

/-- The trigger evaluator: the band scan of `main` over the whole `levels`
list, indices starting at 1 (`enumerate(..., start=1)`). -/
def evaluate (price : ℚ) (bands : List Band) : TriggerResult :=
  evaluateFrom price 1 bands

/-- The `low <= price <= high` test of `main`, on the float `price` taken
from the snapshot (IEEE comparisons). -/
def bandContains (price : PFloat) (b : Band) : Bool :=
  (PFloat.fin b.low).le price && price.le (PFloat.fin b.high)

/-- Whether any band of the list contains the price. -/
def bandHit (price : PFloat) (bands : List Band) : Bool :=
  bands.any (bandContains price)

/-- One configured instrument: yfinance symbol, display name, category and
ordered band list (`PORTFOLIO` values). -/
structure Instrument where
  symbol : String
  name : String
  category : String
  levels : List Band

/-- Outcome of one `requests.post` call inside `send_telegram`: delivered,
delivered-but-error-response (the script inspects neither), or a raised
transport exception (timeout, connection error), which the script does not
catch. -/
inductive NetResult where
  | ok : NetResult
  | httpFail : NetResult
  | raiseExn : NetResult
deriving DecidableEq

/-- Observable side effects of one run of `main`, in order. -/
inductive Event where
  | startBanner : Event
  | unavailable : String → Event
  | notify : String → Nat → ℚ → Event
  | journal : String → Nat → ℚ → Event
  | statusLine : String → Option Nat → Event
  | endBanner : Event
deriving DecidableEq

/-- The `for idx, (low, high, qty) in enumerate(...)` loop of `main` for
one instrument: on the first matching band the script calls
`send_telegram` (which swallows error responses but propagates raised
exceptions) and then `log_to_csv`, and breaks.  `Except.error` carries the
events that happened before an uncaught exception aborted the run; the
`Option Nat` is the matched level of the final `status` string (`none` is
`"WAIT"`). -/
def processBands (sym : String) (snap : Snapshot) (net : NetResult) :
    Nat → List Band → Except (List Event) (List Event × Option Nat)
  | _, [] => Except.ok ([], none)
  | idx, b :: rest =>
      if bandContains snap.price b then
        match net with
        | NetResult.raiseExn => Except.error [Event.notify sym idx b.qty]
        | _ => Except.ok ([Event.notify sym idx b.qty, Event.journal sym idx b.qty], some idx)
      else processBands sym snap net (idx + 1) rest

/-- One iteration of the instrument loop of `main`: fetch, and either the
"Data unavailable" line and `continue`, or the band scan followed by the
per-instrument status line. -/
def processInstrument (download : String → List PFloat) (net : String → NetResult)
    (inst : Instrument) : Except (List Event) (List Event) :=
  match fetch_indicators (download inst.symbol) with
  | none => Except.ok [Event.unavailable inst.symbol]
  | some snap =>
      match processBands inst.symbol snap (net inst.symbol) 1 inst.levels with
      | Except.error evs => Except.error evs
      | Except.ok (evs, status) => Except.ok (evs ++ [Event.statusLine inst.symbol status])

/-- The instrument loop of `main` over a list of instruments; an uncaught
exception carries out the events emitted so far. -/
def runInstruments (download : String → List PFloat) (net : String → NetResult) :
    List Instrument → Except (List Event) (List Event)
  | [] => Except.ok []
  | inst :: rest =>
      match processInstrument download net inst with
      | Except.error evs => Except.error evs
      | Except.ok evs =>
          match runInstruments download net rest with
          | Except.error evs2 => Except.error (evs ++ evs2)
          | Except.ok evs2 => Except.ok (evs ++ evs2)

/-- A whole run of `main`: start banner, instrument loop, and — only when
no exception escaped — the `"Run completed successfully"` end banner.  The
boolean records whether the run completed. -/
def runMain (download : String → List PFloat) (net : String → NetResult)
    (instruments : List Instrument) : List Event × Bool :=
  match runInstruments download net instruments with
  | Except.error evs => (Event.startBanner :: evs, false)
  | Except.ok evs => (Event.startBanner :: (evs ++ [Event.endBanner]), true)

/-- The static `PORTFOLIO` table of the script (decimal literals read as
exact rationals). -/
def portfolioTable : List Instrument :=
  [⟨"DIVOPPBEES.NS", "Nippon India ETF Dividend Opportunities", "ETF",
      [⟨78, 79, 25⟩, ⟨74, 75, 35⟩]⟩,
   ⟨"HEALTHY.NS", "BSL Nifty HealthCare ETF", "ETF",
      [⟨13.8, 14.0, 100⟩, ⟨12.8, 13.2, 150⟩]⟩,
   ⟨"MAHKTECH.NS", "Mahktech", "STOCK",
      [⟨25.5, 26.0, 150⟩, ⟨23.0, 24.0, 200⟩]⟩,
   ⟨"IRCTC.NS", "IRCTC", "STOCK",
      [⟨560, 580, 8⟩, ⟨500, 520, 10⟩]⟩,
   ⟨"TATAGOLD.NS", "Tata Gold ETF", "ETF",
      [⟨14.5, 14.6, 300⟩, ⟨13.8, 14.0, 400⟩, ⟨12.8, 13.2, 500⟩]⟩,
   ⟨"EVINDIA.NS", "EVINDIA ETF", "ETF",
      [⟨28.0, 28.5, 100⟩, ⟨26.0, 26.5, 150⟩, ⟨23.5, 24.0, 200⟩]⟩,
   ⟨"GAIL.NS", "GAIL", "STOCK",
      [⟨150, 152, 50⟩, ⟨138, 142, 70⟩, ⟨125, 130, 80⟩]⟩,
   ⟨"IOB.NS", "Indian Overseas Bank", "STOCK",
      [⟨32, 33, 40⟩, ⟨28, 29, 60⟩, ⟨24, 25, 50⟩]⟩,
   ⟨"TMPV.NS", "Tata Motors Passenger Vehicles Ltd", "STOCK",
      [⟨330, 335, 6⟩, ⟨300, 310, 10⟩, ⟨270, 280, 10⟩]⟩,
   ⟨"GROWWRLTY.NS", "Groww Nifty Realty ETF", "ETF",
      [⟨8.0, 8.2, 70⟩, ⟨7.2, 7.4, 100⟩, ⟨6.2, 6.5, 100⟩]⟩,
   ⟨"CESC.NS", "CESC", "STOCK",
      [⟨132, 135, 15⟩, ⟨120, 125, 20⟩, ⟨105, 110, 15⟩]⟩]

/-- Event classifier: notification attempts. -/
def Event.isNotify : Event → Bool
  | .notify _ _ _ => true
  | _ => false

/-- Event classifier: journal rows. -/
def Event.isJournal : Event → Bool
  | .journal _ _ _ => true
  | _ => false

/-- Event classifier: "Data unavailable" lines. -/
def Event.isUnavailable : Event → Bool
  | .unavailable _ => true
  | _ => false

/-- Events emitted by a band scan whether or not it raised. -/
def eventsOfScan : Except (List Event) (List Event × Option Nat) → List Event
  | Except.error evs => evs
  | Except.ok (evs, _) => evs

/-- Events emitted by one instrument whether or not it raised. -/
def eventsOfInst : Except (List Event) (List Event) → List Event
  | Except.error evs => evs
  | Except.ok evs => evs

/-! ## The trigger evaluator (claims C1, C2) -/

lemma evaluateFrom_eq_noMatch (p : ℚ) (k : Nat) (bs : List Band) :
    evaluateFrom p k bs = .noMatch ↔ ∀ b ∈ bs, ¬ (b.low ≤ p ∧ p ≤ b.high) := by
  induction bs generalizing k with
  | nil => simp [evaluateFrom]
  | cons b rest ih =>
    simp only [evaluateFrom]
    split_ifs with hb
    · constructor
      · intro h; simp at h
      · intro h; exact absurd hb (h b (by simp))
    · rw [ih (k + 1)]
      constructor
      · intro h x hx
        rcases List.mem_cons.mp hx with rfl | hx
        exacts [hb, h x hx]
      · intro h x hx
        exact h x (List.mem_cons_of_mem _ hx)

lemma evaluateFrom_first_hit (p : ℚ) :
    ∀ (bs : List Band) (k i : Nat) (h : i < bs.length),
      ((bs.get ⟨i, h⟩).low ≤ p ∧ p ≤ (bs.get ⟨i, h⟩).high) →
      (∀ j (hj : j < i),
        ¬ ((bs.get ⟨j, lt_trans hj h⟩).low ≤ p ∧ p ≤ (bs.get ⟨j, lt_trans hj h⟩).high)) →
      evaluateFrom p k bs = .matched (k + i) (bs.get ⟨i, h⟩) := by
  intro bs
  induction bs with
  | nil =>
    intro k i h
    exact absurd h (by simp)
  | cons b rest ih =>
    intro k i h hi hmin
    cases i with
    | zero =>
      show evaluateFrom p k (b :: rest) = .matched (k + 0) b
      have hb : b.low ≤ p ∧ p ≤ b.high := hi
      simp [evaluateFrom, hb]
    | succ n =>
      have hb : ¬ (b.low ≤ p ∧ p ≤ b.high) := by
        simpa using hmin 0 (Nat.succ_pos n)
      have hrec := ih (k + 1) n (by simpa using Nat.lt_of_succ_lt_succ h)
        (by simpa using hi)
        (fun j hj => by simpa using hmin (j + 1) (Nat.succ_lt_succ hj))
      have hkn : k + 1 + n = k + (n + 1) := by omega
      simp only [evaluateFrom, if_neg hb]
      rw [hrec, hkn]
      rfl

/-- C1: the trigger evaluator returns `Matched(idx, band)` for the
earliest-listed band whose interval contains the price (boundaries
inclusive: the condition is `low ≤ price ≤ high`), and `NoMatch` exactly
when no band contains the price. -/
theorem trigger_evaluator_correct (p : ℚ) (bs : List Band) :
    (evaluate p bs = .noMatch ↔ ∀ b ∈ bs, ¬ (b.low ≤ p ∧ p ≤ b.high)) ∧
    (∀ i (h : i < bs.length),
      ((bs.get ⟨i, h⟩).low ≤ p ∧ p ≤ (bs.get ⟨i, h⟩).high) →
      (∀ j (hj : j < i),
        ¬ ((bs.get ⟨j, lt_trans hj h⟩).low ≤ p ∧ p ≤ (bs.get ⟨j, lt_trans hj h⟩).high)) →
      evaluate p bs = .matched (i + 1) (bs.get ⟨i, h⟩)) := by
  refine ⟨evaluateFrom_eq_noMatch p 1 bs, fun i h hi hmin => ?_⟩
  have := evaluateFrom_first_hit p bs 1 i h hi hmin
  rwa [Nat.add_comm 1 i] at this

/-- Witness for C1 at the spec's own example: price 17 against bands
`[(10,20,1), (15,25,2)]` matches band 1, and the boundary price 20 still
matches band 1 (inclusive upper bound). -/
theorem trigger_evaluator_correct_witness :
    (([⟨10, 20, 1⟩, ⟨15, 25, 2⟩] : List Band).get ⟨0, by norm_num⟩).low ≤ (17 : ℚ) ∧
    (17 : ℚ) ≤ (([⟨10, 20, 1⟩, ⟨15, 25, 2⟩] : List Band).get ⟨0, by norm_num⟩).high ∧
    evaluate 17 [⟨10, 20, 1⟩, ⟨15, 25, 2⟩] = .matched 1 ⟨10, 20, 1⟩ ∧
    evaluate 20 [⟨10, 20, 1⟩, ⟨15, 25, 2⟩] = .matched 1 ⟨10, 20, 1⟩ := by
  refine ⟨by norm_num, by norm_num, ?_, ?_⟩
  · exact (trigger_evaluator_correct 17 [⟨10, 20, 1⟩, ⟨15, 25, 2⟩]).2 0 (by norm_num)
      (by norm_num) (fun j hj => absurd hj (Nat.not_lt_zero j))
  · exact (trigger_evaluator_correct 20 [⟨10, 20, 1⟩, ⟨15, 25, 2⟩]).2 0 (by norm_num)
      (by norm_num) (fun j hj => absurd hj (Nat.not_lt_zero j))

lemma processBands_counts (sym : String) (snap : Snapshot) (net : NetResult) :
    ∀ (idx : Nat) (bands : List Band),
      (eventsOfScan (processBands sym snap net idx bands)).countP Event.isNotify ≤ 1 ∧
      (eventsOfScan (processBands sym snap net idx bands)).countP Event.isJournal ≤ 1 := by
  intro idx bands
  induction bands generalizing idx with
  | nil => simp [processBands, eventsOfScan]
  | cons b rest ih =>
    simp only [processBands]
    split_ifs with hb
    · cases net <;>
        simp [eventsOfScan, List.countP_cons, Event.isNotify, Event.isJournal]
    · exact ih (idx + 1)

lemma processInstrument_counts (download : String → List PFloat) (net : String → NetResult)
    (inst : Instrument) :
    (eventsOfInst (processInstrument download net inst)).countP Event.isNotify ≤ 1 ∧
    (eventsOfInst (processInstrument download net inst)).countP Event.isJournal ≤ 1 := by
  rcases hf : fetch_indicators (download inst.symbol) with _ | snap
  · simp [processInstrument, hf, eventsOfInst, Event.isNotify, Event.isJournal]
  · rcases hp : processBands inst.symbol snap (net inst.symbol) 1 inst.levels with evs | ⟨evs, st⟩
    · have hc := processBands_counts inst.symbol snap (net inst.symbol) 1 inst.levels
      rw [hp] at hc
      simpa [processInstrument, hf, hp, eventsOfInst, eventsOfScan] using hc
    · have hc := processBands_counts inst.symbol snap (net inst.symbol) 1 inst.levels
      rw [hp] at hc
      simp only [eventsOfScan] at hc
      simpa [processInstrument, hf, hp, eventsOfInst, List.countP_append,
        Event.isNotify, Event.isJournal] using hc

/-- C2: one evaluation of an instrument attempts at most one notification
and appends at most one journal row (the band loop breaks at the first
match); the first matching band wins even when later bands overlap, as in
the spec's example with bands `[(10,20,1), (15,25,2)]` at price 17. -/
theorem at_most_one_match (download : String → List PFloat) (net : String → NetResult)
    (inst : Instrument) (p : ℚ) (b : Band) (rest : List Band) :
    (eventsOfInst (processInstrument download net inst)).countP Event.isNotify ≤ 1 ∧
    (eventsOfInst (processInstrument download net inst)).countP Event.isJournal ≤ 1 ∧
    (b.low ≤ p ∧ p ≤ b.high → evaluate p (b :: rest) = .matched 1 b) ∧
    evaluate 17 [⟨10, 20, 1⟩, ⟨15, 25, 2⟩] = .matched 1 ⟨10, 20, 1⟩ := by
  refine ⟨(processInstrument_counts download net inst).1,
    (processInstrument_counts download net inst).2, fun hb => ?_, ?_⟩
  · simp [evaluate, evaluateFrom, hb]
  · norm_num [evaluate, evaluateFrom]

/-- Witness for C2 at price 17 with the spec's overlapping bands and a
trivial instrument. -/
theorem at_most_one_match_witness :
    ((⟨10, 20, 1⟩ : Band).low ≤ (17 : ℚ) ∧ (17 : ℚ) ≤ (⟨10, 20, 1⟩ : Band).high) ∧
    evaluate 17 (⟨10, 20, 1⟩ :: [⟨15, 25, 2⟩]) = .matched 1 ⟨10, 20, 1⟩ ∧
    (eventsOfInst (processInstrument (fun _ => []) (fun _ => NetResult.ok)
      ⟨"X", "X", "STOCK", []⟩)).countP Event.isNotify ≤ 1 := by
  refine ⟨by norm_num, ?_, ?_⟩
  · exact (at_most_one_match (fun _ => []) (fun _ => NetResult.ok) ⟨"X", "X", "STOCK", []⟩
      17 ⟨10, 20, 1⟩ [⟨15, 25, 2⟩]).2.2.1 (by norm_num)
  · exact (at_most_one_match (fun _ => []) (fun _ => NetResult.ok) ⟨"X", "X", "STOCK", []⟩
      17 ⟨10, 20, 1⟩ [⟨15, 25, 2⟩]).1

/-! ## Short series (claim C3) -/

/-- C3: any series with fewer than 50 rows (the slow window) makes
`fetch_indicators` return `None`, i.e. no snapshot. -/
theorem short_series_unavailable (close : List PFloat) (h : close.length < 50) :
    fetch_indicators close = none := by
  simp [fetch_indicators, h]

/-- Witness for C3 on a 49-row series. -/
theorem short_series_unavailable_witness :
    (List.replicate 49 (PFloat.fin 1)).length < 50 ∧
    fetch_indicators (List.replicate 49 (PFloat.fin 1)) = none :=
  ⟨by simp, short_series_unavailable _ (by simp)⟩

/-! ## Pointwise facts about the float operations -/

@[simp] lemma PFloat.add_fin_fin (a b : ℚ) :
    (PFloat.fin a).add (.fin b) = .fin (a + b) := rfl

@[simp] lemma PFloat.add_fin_nan (a : ℚ) : (PFloat.fin a).add .nan = .nan := rfl

@[simp] lemma PFloat.add_fin_pinf (a : ℚ) : (PFloat.fin a).add .pinf = .pinf := rfl

@[simp] lemma PFloat.sub_fin_fin (a b : ℚ) :
    (PFloat.fin a).sub (.fin b) = .fin (a - b) := by
  show PFloat.fin (a + -b) = .fin (a - b)
  rw [← sub_eq_add_neg]

@[simp] lemma PFloat.div_fin_nan (a : ℚ) : (PFloat.fin a).div .nan = .nan := rfl

@[simp] lemma PFloat.div_fin_pinf (a : ℚ) : (PFloat.fin a).div .pinf = .fin 0 := rfl

lemma PFloat.div_fin_fin_of_ne (a b : ℚ) (hb : b ≠ 0) :
    (PFloat.fin a).div (.fin b) = .fin (a / b) := by
  simp [PFloat.div, hb]

lemma PFloat.div_fin_zero_of_pos (a : ℚ) (ha : 0 < a) :
    (PFloat.fin a).div (.fin 0) = .pinf := by
  simp [PFloat.div, ha, ha.ne.symm]

@[simp] lemma PFloat.div_zero_zero : (PFloat.fin 0).div (.fin 0) = .nan := by
  simp [PFloat.div]

/-- Every value is finite or NaN — the shape of provider data (pandas
encodes missing values as NaN) and of every rolling mean of such data. -/
def FinOrNan (x : PFloat) : Prop := x = .nan ∨ ∃ q : ℚ, x = .fin q

/-- Every gain/loss-side value is NaN, `+inf`, or a nonnegative finite
value; this shape is preserved by the whole RSI pipeline up to `rs`. -/
def NNish (x : PFloat) : Prop :=
  x = .nan ∨ x = .pinf ∨ ∃ q : ℚ, x = .fin q ∧ 0 ≤ q

lemma NNish_clipLower0 (d : PFloat) : NNish d.clipLower0 := by
  cases d with
  | fin a => exact Or.inr (Or.inr ⟨max a 0, rfl, le_max_right a 0⟩)
  | nan => exact Or.inl rfl
  | pinf => exact Or.inr (Or.inl rfl)
  | ninf => exact Or.inr (Or.inr ⟨0, rfl, le_refl 0⟩)

lemma NNish_neg_clipUpper0 (d : PFloat) : NNish d.clipUpper0.neg := by
  cases d with
  | fin a =>
    refine Or.inr (Or.inr ⟨-(min a 0), rfl, ?_⟩)
    simp [min_le_iff]
  | nan => exact Or.inl rfl
  | pinf => exact Or.inr (Or.inr ⟨-0, rfl, by norm_num⟩)
  | ninf => exact Or.inr (Or.inl rfl)

lemma NNish_add {a b : PFloat} (ha : NNish a) (hb : NNish b) : NNish (a.add b) := by
  rcases ha with rfl | rfl | ⟨p, rfl, hp⟩ <;> rcases hb with rfl | rfl | ⟨q, rfl, hq⟩
  · exact Or.inl rfl
  · exact Or.inl rfl
  · exact Or.inl rfl
  · exact Or.inl rfl
  · exact Or.inr (Or.inl rfl)
  · exact Or.inr (Or.inl rfl)
  · exact Or.inl rfl
  · exact Or.inr (Or.inl rfl)
  · exact Or.inr (Or.inr ⟨p + q, rfl, by positivity⟩)

lemma NNish.foldl_add {l : List PFloat} {acc : PFloat}
    (hl : ∀ x ∈ l, NNish x) (hacc : NNish acc) :
    NNish (l.foldl PFloat.add acc) := by
  induction l generalizing acc with
  | nil => exact hacc
  | cons x xs ih =>
    exact ih (fun y hy => hl y (List.mem_cons_of_mem _ hy))
      (NNish_add hacc (hl x (by simp)))

lemma NNish.div {a b : PFloat} (ha : NNish a) (hb : NNish b) : NNish (a.div b) := by
  rcases ha with rfl | rfl | ⟨p, rfl, hp⟩ <;> rcases hb with rfl | rfl | ⟨q, rfl, hq⟩
  · exact Or.inl rfl
  · exact Or.inl rfl
  · exact Or.inl rfl
  · exact Or.inl rfl
  · exact Or.inl rfl
  · exact Or.inr (Or.inl (by simp [PFloat.div, hq]))
  · exact Or.inl rfl
  · exact Or.inr (Or.inr ⟨0, rfl, le_refl 0⟩)
  · rcases eq_or_lt_of_le hq with hq0 | hq0
    · rcases eq_or_lt_of_le hp with hp0 | hp0
      · exact Or.inl (by simp [← hp0, ← hq0])
      · exact Or.inr (Or.inl (by rw [← hq0]; exact PFloat.div_fin_zero_of_pos p hp0))
    · refine Or.inr (Or.inr ⟨p / q, PFloat.div_fin_fin_of_ne p q hq0.ne.symm, ?_⟩)
      positivity

lemma NNish.pmean {l : List PFloat} (hl : ∀ x ∈ l, NNish x) : NNish (pmean l) := by
  have hsum : NNish (l.foldl PFloat.add (.fin 0)) :=
    NNish.foldl_add hl (Or.inr (Or.inr ⟨0, rfl, le_refl 0⟩))
  exact hsum.div (Or.inr (Or.inr ⟨(l.length : ℚ), rfl, by positivity⟩))

lemma NNish_rollingMeanAt {xs : List PFloat} (n i : Nat)
    (hxs : ∀ x ∈ xs, NNish x) : NNish (rollingMeanAt n xs i) := by
  unfold rollingMeanAt
  split_ifs
  · exact Or.inl rfl
  · exact NNish.pmean fun x hx =>
      hxs x (List.mem_of_mem_take (List.mem_of_mem_drop hx))

lemma NNish_mem_gains (close : List PFloat) : ∀ x ∈ gains close, NNish x := by
  intro x hx
  obtain ⟨d, -, rfl⟩ := List.mem_map.mp hx
  exact NNish_clipLower0 d

lemma NNish_mem_losses (close : List PFloat) : ∀ x ∈ losses close, NNish x := by
  intro x hx
  obtain ⟨d, -, rfl⟩ := List.mem_map.mp hx
  exact NNish_neg_clipUpper0 d

/-- Shape of every RSI value the script can compute: NaN, or a finite
rational in `[0, 100]`. -/
lemma rsi_shape (close : List PFloat) (period i : Nat) :
    calculate_rsi close period i = .nan ∨
    ∃ q : ℚ, calculate_rsi close period i = .fin q ∧ 0 ≤ q ∧ q ≤ 100 := by
  have hrs : NNish ((rollingMeanAt period (gains close) i).div
      (rollingMeanAt period (losses close) i)) :=
    (NNish_rollingMeanAt period i (NNish_mem_gains close)).div
      (NNish_rollingMeanAt period i (NNish_mem_losses close))
  unfold calculate_rsi
  rcases hrs with h | h | ⟨q, h, hq⟩ <;> rw [h]
  · exact Or.inl rfl
  · refine Or.inr ⟨100, ?_, by norm_num, le_refl 100⟩
    show PFloat.fin (100 + -(0 : ℚ)) = .fin 100
    norm_num
  · have h1q : (0 : ℚ) < 1 + q := by linarith
    refine Or.inr ⟨100 - 100 / (1 + q), ?_, ?_, ?_⟩
    · rw [PFloat.add_fin_fin, PFloat.div_fin_fin_of_ne _ _ h1q.ne.symm,
        PFloat.sub_fin_fin]
    · have : 100 / (1 + q) ≤ 100 := by
        rw [div_le_iff₀ h1q]; nlinarith
      linarith
    · have : 0 < 100 / (1 + q) := by positivity
      linarith

/-- Destructor for a successful `fetch_indicators` call: the snapshot
fields are exactly the indicator values at the last row, none of which is
NaN, and the series has at least 50 rows. -/
lemma fetch_indicators_some (close : List PFloat) (snap : Snapshot)
    (h : fetch_indicators close = some snap) :
    50 ≤ close.length ∧
    snap.price = close.getD (close.length - 1) .nan ∧
    snap.dma20 = rollingMeanAt 20 close (close.length - 1) ∧
    snap.dma50 = rollingMeanAt 50 close (close.length - 1) ∧
    snap.rsi = calculate_rsi close 14 (close.length - 1) ∧
    snap.trend = mkTrend snap.price snap.dma20 snap.dma50 ∧
    snap.price.isna = false ∧ snap.dma20.isna = false ∧
    snap.dma50.isna = false ∧ snap.rsi.isna = false := by
  unfold fetch_indicators at h
  split_ifs at h with h1 h2
  have hs := (Option.some.inj h).symm
  subst hs
  simp only [Bool.or_eq_true, not_or, Bool.not_eq_true] at h2
  obtain ⟨⟨⟨hpna, h20na⟩, h50na⟩, hrna⟩ := h2
  exact ⟨by omega, rfl, rfl, rfl, rfl, rfl, hpna, h20na, h50na, hrna⟩

/-! ## Finiteness of produced snapshots (claims C7, C5) -/

lemma FinOrNan_add {a b : PFloat} (ha : FinOrNan a) (hb : FinOrNan b) :
    FinOrNan (a.add b) := by
  rcases ha with rfl | ⟨p, rfl⟩ <;> rcases hb with rfl | ⟨q, rfl⟩
  · exact Or.inl rfl
  · exact Or.inl rfl
  · exact Or.inl rfl
  · exact Or.inr ⟨p + q, rfl⟩

lemma FinOrNan_foldl_add {l : List PFloat} {acc : PFloat}
    (hl : ∀ x ∈ l, FinOrNan x) (hacc : FinOrNan acc) :
    FinOrNan (l.foldl PFloat.add acc) := by
  induction l generalizing acc with
  | nil => exact hacc
  | cons x xs ih =>
    exact ih (fun y hy => hl y (List.mem_cons_of_mem _ hy))
      (FinOrNan_add hacc (hl x (by simp)))

lemma FinOrNan_pmean {l : List PFloat} (hl : ∀ x ∈ l, FinOrNan x) :
    FinOrNan (pmean l) := by
  cases l with
  | nil => exact Or.inl (by simp [pmean])
  | cons x xs =>
    have hlen : ((x :: xs).length : ℚ) ≠ 0 := by
      exact_mod_cast Nat.cast_ne_zero.mpr (Nat.succ_ne_zero xs.length)
    have hsum := FinOrNan_foldl_add hl (Or.inr ⟨0, rfl⟩)
    rcases hsum with h | ⟨q, h⟩ <;> unfold pmean <;> rw [h]
    · exact Or.inl rfl
    · exact Or.inr ⟨q / ((x :: xs).length : ℚ), PFloat.div_fin_fin_of_ne _ _ hlen⟩

lemma FinOrNan_rollingMeanAt (n i : Nat) {xs : List PFloat}
    (hxs : ∀ x ∈ xs, FinOrNan x) : FinOrNan (rollingMeanAt n xs i) := by
  unfold rollingMeanAt
  split_ifs
  · exact Or.inl rfl
  · exact FinOrNan_pmean fun x hx =>
      hxs x (List.mem_of_mem_take (List.mem_of_mem_drop hx))

lemma finOrNan_resolve {x : PFloat} (h : FinOrNan x) (hna : x.isna = false) :
    ∃ q : ℚ, x = .fin q := by
  rcases h with rfl | hq
  · simp [PFloat.isna] at hna
  · exact hq

/-- C7: on provider data (each value finite or NaN, the shapes pandas can
deliver), every snapshot that `fetch_indicators` actually returns has
finite price, DMA20, DMA50 and RSI; a NaN in any of these at the latest
row makes it return `None` instead. -/
theorem snapshot_fields_finite (close : List PFloat) (snap : Snapshot)
    (hfin : ∀ x ∈ close, FinOrNan x)
    (h : fetch_indicators close = some snap) :
    (∃ p, snap.price = .fin p) ∧ (∃ a, snap.dma20 = .fin a) ∧
    (∃ b, snap.dma50 = .fin b) ∧ (∃ r, snap.rsi = .fin r) := by
  obtain ⟨hlen, hp, h20, h50, hrsi, -, hpna, h20na, h50na, hrna⟩ :=
    fetch_indicators_some close snap h
  refine ⟨?_, ?_, ?_, ?_⟩
  · refine finOrNan_resolve ?_ hpna
    rw [hp]
    have hlt : close.length - 1 < close.length := by omega
    rw [List.getD_eq_getElem _ _ hlt]
    exact hfin _ (List.getElem_mem hlt)
  · refine finOrNan_resolve ?_ h20na
    rw [h20]
    exact FinOrNan_rollingMeanAt 20 _ hfin
  · refine finOrNan_resolve ?_ h50na
    rw [h50]
    exact FinOrNan_rollingMeanAt 50 _ hfin
  · refine finOrNan_resolve ?_ hrna
    rw [hrsi]
    rcases rsi_shape close 14 (close.length - 1) with hh | ⟨q, hh, -, -⟩
    · exact Or.inl hh
    · exact Or.inr ⟨q, hh⟩

/-- C5: every snapshot the engine produces carries a finite RSI in
`[0, 100]` (never NaN), and when the rolling average loss at the latest
row is 0 while the average gain is positive, RS is `+inf` and the RSI
saturates to exactly 100. -/
theorem rsi_bounded_and_saturates (close : List PFloat) (snap : Snapshot)
    (h : fetch_indicators close = some snap) :
    (∃ q : ℚ, snap.rsi = .fin q ∧ 0 ≤ q ∧ q ≤ 100) ∧
    (rollingMeanAt 14 (losses close) (close.length - 1) = .fin 0 →
      ∀ g : ℚ, rollingMeanAt 14 (gains close) (close.length - 1) = .fin g →
      0 < g → snap.rsi = .fin 100) := by
  obtain ⟨-, -, -, -, hrsi, -, -, -, -, hrna⟩ := fetch_indicators_some close snap h
  constructor
  · rcases rsi_shape close 14 (close.length - 1) with hh | ⟨q, hh, h0, h100⟩
    · rw [hrsi, hh] at hrna
      simp [PFloat.isna] at hrna
    · exact ⟨q, by rw [hrsi, hh], h0, h100⟩
  · intro hL g hG hg
    rw [hrsi]
    unfold calculate_rsi
    rw [hG, hL, PFloat.div_fin_zero_of_pos g hg]
    show PFloat.fin (100 + -(0 : ℚ)) = .fin 100
    norm_num

/-! ## Trend classification (claim C6) -/

lemma trend_cond_bull (p d20 d50 : ℚ) :
    (((PFloat.fin p).gt (.fin d20)) && ((PFloat.fin d20).gt (.fin d50))) = true ↔
      (d20 < p ∧ d50 < d20) := by
  simp [PFloat.gt, PFloat.lt]

lemma trend_cond_bear (p d20 d50 : ℚ) :
    (((PFloat.fin p).lt (.fin d20)) && ((PFloat.fin d20).lt (.fin d50))) = true ↔
      (p < d20 ∧ d20 < d50) := by
  simp [PFloat.lt]

lemma mkTrend_fin (p d20 d50 : ℚ) :
    (mkTrend (.fin p) (.fin d20) (.fin d50) = .Bullish ↔ (d20 < p ∧ d50 < d20)) ∧
    (mkTrend (.fin p) (.fin d20) (.fin d50) = .Bearish ↔ (p < d20 ∧ d20 < d50)) ∧
    (mkTrend (.fin p) (.fin d20) (.fin d50) = .Sideways ↔
      (¬(d20 < p ∧ d50 < d20) ∧ ¬(p < d20 ∧ d20 < d50))) := by
  unfold mkTrend
  split_ifs with hc1 hc2
  · rw [trend_cond_bull] at hc1
    refine ⟨iff_of_true rfl hc1, iff_of_false (by simp) ?_, iff_of_false (by simp) ?_⟩
    · rintro ⟨h1, h2⟩
      exact absurd hc1.1 (not_lt.mpr h1.le)
    · rintro ⟨h1, -⟩
      exact h1 hc1
  · rw [Bool.not_eq_true, ← Bool.not_eq_true] at hc1
    rw [trend_cond_bear] at hc2
    refine ⟨iff_of_false (by simp) ?_, iff_of_true rfl hc2, iff_of_false (by simp) ?_⟩
    · intro hb
      exact hc1 ((trend_cond_bull p d20 d50).mpr hb)
    · rintro ⟨-, h2⟩
      exact h2 hc2
  · rw [Bool.not_eq_true, ← Bool.not_eq_true] at hc1 hc2
    refine ⟨iff_of_false (by simp) ?_, iff_of_false (by simp) ?_, iff_of_true rfl ⟨?_, ?_⟩⟩
    · intro hb
      exact hc1 ((trend_cond_bull p d20 d50).mpr hb)
    · intro hb
      exact hc2 ((trend_cond_bear p d20 d50).mpr hb)
    · intro hb
      exact hc1 ((trend_cond_bull p d20 d50).mpr hb)
    · intro hb
      exact hc2 ((trend_cond_bear p d20 d50).mpr hb)

/-- C6: in every produced snapshot the trend is `Bullish` exactly when
`price > DMA20 > DMA50`, `Bearish` exactly when `price < DMA20 < DMA50`,
and `Sideways` in all remaining cases — in particular at boundary
equalities such as `price = DMA20`. -/
theorem trend_classification (close : List PFloat) (snap : Snapshot)
    (h : fetch_indicators close = some snap) (p d20 d50 : ℚ)
    (hp : snap.price = .fin p) (h20 : snap.dma20 = .fin d20)
    (h50 : snap.dma50 = .fin d50) :
    (snap.trend = .Bullish ↔ (d20 < p ∧ d50 < d20)) ∧
    (snap.trend = .Bearish ↔ (p < d20 ∧ d20 < d50)) ∧
    (snap.trend = .Sideways ↔
      (¬(d20 < p ∧ d50 < d20) ∧ ¬(p < d20 ∧ d20 < d50))) := by
  obtain ⟨-, -, -, -, -, htr, -, -, -, -⟩ := fetch_indicators_some close snap h
  rw [htr, hp, h20, h50]
  exact mkTrend_fin p d20 d50

/-! ## Constant series (claim C10) -/

lemma zipWith_sub_replicate (x : PFloat) :
    ∀ m : Nat, List.zipWith PFloat.sub (List.replicate m x) (x :: List.replicate m x)
      = List.replicate m (x.sub x) := by
  intro m
  induction m with
  | zero => rfl
  | succ m ih =>
    simp only [List.replicate_succ, List.zipWith_cons_cons]
    rw [ih]

lemma diffList_replicate (q : ℚ) (m : Nat) :
    diffList (List.replicate (m + 1) (.fin q)) = .nan :: List.replicate m (.fin 0) := by
  rw [List.replicate_succ]
  show PFloat.nan :: List.zipWith PFloat.sub (List.replicate m (.fin q))
      (PFloat.fin q :: List.replicate m (.fin q)) = _
  rw [zipWith_sub_replicate]
  simp

lemma gains_replicate (q : ℚ) (m : Nat) :
    gains (List.replicate (m + 1) (.fin q)) = .nan :: List.replicate m (.fin 0) := by
  unfold gains
  rw [diffList_replicate]
  simp [PFloat.clipLower0]

lemma losses_replicate (q : ℚ) (m : Nat) :
    losses (List.replicate (m + 1) (.fin q)) = .nan :: List.replicate m (.fin 0) := by
  unfold losses
  rw [diffList_replicate]
  simp [PFloat.clipUpper0, PFloat.neg]

lemma foldl_add_replicate_zero : ∀ k : Nat,
    (List.replicate k (PFloat.fin 0)).foldl PFloat.add (.fin 0) = .fin 0 := by
  intro k
  induction k with
  | zero => rfl
  | succ k ih =>
    rw [List.replicate_succ, List.foldl_cons]
    simpa using ih

lemma rollingMean14_nan_zeros (m : Nat) (h : 14 ≤ m) :
    rollingMeanAt 14 (.nan :: List.replicate m (.fin 0)) m = .fin 0 := by
  unfold rollingMeanAt
  rw [if_neg (by omega)]
  unfold windowAt
  rw [List.take_of_length_le (by simp)]
  have hm : m + 1 - 14 = (m - 14) + 1 := by omega
  rw [hm, List.drop_succ_cons, List.drop_replicate]
  have h14 : m - (m - 14) = 14 := by omega
  rw [h14]
  unfold pmean
  rw [foldl_add_replicate_zero]
  rw [List.length_replicate]
  rw [PFloat.div_fin_fin_of_ne _ _ (by norm_num)]
  norm_num

lemma rsi_replicate_nan (q : ℚ) (n : Nat) (h : 15 ≤ n) :
    calculate_rsi (List.replicate n (.fin q)) 14 (n - 1) = .nan := by
  obtain ⟨m, rfl⟩ : ∃ m, n = m + 1 := ⟨n - 1, by omega⟩
  simp only [Nat.add_sub_cancel]
  unfold calculate_rsi
  rw [gains_replicate, losses_replicate,
    rollingMean14_nan_zeros m (by omega), PFloat.div_zero_zero]
  rfl

/-- C10: a series of at least 50 equal closes has zero average gain and
zero average loss over the RSI window, so `rs = 0/0` is NaN, the RSI is
NaN, and `fetch_indicators` rejects the snapshot and returns `None`. -/
theorem constant_series_unavailable (q : ℚ) (close : List PFloat)
    (hall : ∀ x ∈ close, x = .fin q) (hlen : 50 ≤ close.length) :
    fetch_indicators close = none := by
  have hrep : close = List.replicate close.length (.fin q) :=
    List.eq_replicate_of_mem hall
  have hrsi : calculate_rsi close 14 (close.length - 1) = .nan := by
    conv_lhs => rw [hrep, List.length_replicate]
    exact rsi_replicate_nan q close.length (by omega)
  have hnl : ¬ (close.length < 50) := by omega
  simp [fetch_indicators, hnl, hrsi, PFloat.isna]

/-- Witness for C10: fifty closes all equal to 7 produce no snapshot. -/
theorem constant_series_unavailable_witness :
    (∀ x ∈ List.replicate 50 (PFloat.fin 7), x = PFloat.fin 7) ∧
    50 ≤ (List.replicate 50 (PFloat.fin 7)).length ∧
    fetch_indicators (List.replicate 50 (PFloat.fin 7)) = none :=
  ⟨fun x hx => List.eq_of_mem_replicate hx, by simp,
    constant_series_unavailable 7 _ (fun x hx => List.eq_of_mem_replicate hx) (by simp)⟩

/-! ## The RSI formula against the spec's words (claim C4)

`specDeltas`, `specWindow`, `specAvgGain`, `specAvgLoss` and `specRSI`
are a second, spec-side definition of the RSI at the latest date, written
from the spec's formula (per-period delta; gain `max(delta,0)`; loss
`max(-delta,0)`; simple rolling means of the last 14 gains and losses;
`RS = avg_gain/avg_loss`; `RSI = 100 - 100/(1+RS)`) over exact rationals,
to be compared with `calculate_rsi` translated from the source. -/

/-- Spec side: per-period price deltas of the series. -/
def specDeltas (closes : List ℚ) : List ℚ :=
  List.zipWith (fun a b => a - b) closes.tail closes

/-- Spec side: the last 14 deltas, i.e. the RSI window ending at the
latest date. -/
def specWindow (closes : List ℚ) : List ℚ :=
  (specDeltas closes).drop ((specDeltas closes).length - 14)

/-- Spec side: simple rolling mean of the last 14 gains. -/
def specAvgGain (closes : List ℚ) : ℚ :=
  ((specWindow closes).map (fun d => max d 0)).sum / 14

/-- Spec side: simple rolling mean of the last 14 losses. -/
def specAvgLoss (closes : List ℚ) : ℚ :=
  ((specWindow closes).map (fun d => max (-d) 0)).sum / 14

/-- Spec side: `RSI = 100 - 100/(1 + avg_gain/avg_loss)` at the latest
date. -/
def specRSI (closes : List ℚ) : ℚ :=
  100 - 100 / (1 + specAvgGain closes / specAvgLoss closes)

lemma neg_min_eq_max (d : ℚ) : -(min d 0) = max (-d) 0 := by
  rcases le_total d 0 with h | h
  · rw [min_eq_left h, max_eq_left (by linarith)]
  · rw [min_eq_right h, max_eq_right (by linarith), neg_zero]

lemma zipWith_sub_map_fin (xs ys : List ℚ) :
    List.zipWith PFloat.sub (xs.map .fin) (ys.map .fin)
      = (List.zipWith (fun a b => a - b) xs ys).map PFloat.fin := by
  rw [List.zipWith_map, List.map_zipWith]
  simp only [PFloat.sub_fin_fin]

lemma diffList_map_fin (closes : List ℚ) (h : closes ≠ []) :
    diffList (closes.map .fin) = .nan :: (specDeltas closes).map PFloat.fin := by
  cases closes with
  | nil => exact absurd rfl h
  | cons c rest =>
    show PFloat.nan :: List.zipWith PFloat.sub (rest.map .fin) ((c :: rest).map .fin) = _
    rw [zipWith_sub_map_fin rest (c :: rest)]
    rfl

lemma foldl_add_map_fin : ∀ (l : List ℚ) (a : ℚ),
    (l.map PFloat.fin).foldl PFloat.add (.fin a) = .fin (a + l.sum) := by
  intro l
  induction l with
  | nil => simp
  | cons x xs ih =>
    intro a
    show (xs.map PFloat.fin).foldl PFloat.add ((PFloat.fin a).add (.fin x)) = _
    rw [PFloat.add_fin_fin, ih (a + x)]
    congr 1
    rw [List.sum_cons]
    ring

lemma pmean_map_fin (l : List ℚ) (h : (l.length : ℚ) ≠ 0) :
    pmean (l.map PFloat.fin) = .fin (l.sum / l.length) := by
  unfold pmean
  rw [foldl_add_map_fin, List.length_map, PFloat.div_fin_fin_of_ne _ _ h]
  norm_num

/-- The rolling mean at the latest row of any pointwise-mapped delta
series (the common shape of the gain and loss pipelines) equals the mean
of the spec's 14-delta window mapped through the rational shadow `g` of
the float map `f`. -/
lemma rollingMean_pipeline (closes : List ℚ) (h : 15 ≤ closes.length)
    (f : PFloat → PFloat) (g : ℚ → ℚ)
    (hfg : ∀ d : ℚ, f (.fin d) = .fin (g d)) (hfnan : f .nan = .nan) :
    rollingMeanAt 14 ((diffList (closes.map .fin)).map f) (closes.length - 1)
      = .fin (((specWindow closes).map g).sum / 14) := by
  have hne : closes ≠ [] := by
    intro he
    rw [he] at h
    simp at h
  have hD : (specDeltas closes).length = closes.length - 1 := by
    unfold specDeltas
    rw [List.length_zipWith, List.length_tail]
    omega
  rw [diffList_map_fin closes hne]
  simp only [List.map_cons, hfnan]
  have hmap : ((specDeltas closes).map PFloat.fin).map f
      = ((specDeltas closes).map g).map PFloat.fin := by
    rw [List.map_map, List.map_map]
    exact List.map_congr_left (fun d _ => hfg d)
  rw [hmap]
  unfold rollingMeanAt
  rw [if_neg (by omega)]
  unfold windowAt
  have hlen2 : (PFloat.nan :: ((specDeltas closes).map g).map PFloat.fin).length
      = closes.length := by
    simp only [List.length_cons, List.length_map, hD]
    omega
  rw [List.take_of_length_le (by rw [hlen2]; omega)]
  have hidx : closes.length - 1 + 1 - 14 = (closes.length - 15) + 1 := by omega
  rw [hidx, List.drop_succ_cons, ← List.map_drop, ← List.map_drop]
  have hw : (specDeltas closes).drop (closes.length - 15) = specWindow closes := by
    unfold specWindow
    rw [hD]
    have hi : closes.length - 15 = closes.length - 1 - 14 := by omega
    rw [hi]
  rw [hw]
  have hWlen : (specWindow closes).length = 14 := by
    unfold specWindow
    rw [List.length_drop, hD]
    omega
  rw [pmean_map_fin _ (by rw [List.length_map, hWlen]; norm_num)]
  rw [List.length_map, hWlen]
  norm_num

lemma sum_max_nonneg (l : List ℚ) (g : ℚ → ℚ) (hg : ∀ d, 0 ≤ g d) :
    0 ≤ (l.map g).sum := by
  apply List.sum_nonneg
  intro x hx
  obtain ⟨d, -, rfl⟩ := List.mem_map.mp hx
  exact hg d

/-- C4: for every series long enough to fill the RSI window with real
deltas (at least 15 closes) and with a nonzero average loss, the RSI the
script computes at the latest date is exactly the spec's
simple-rolling-mean formula (not Wilder's smoothing). -/
theorem rsi_matches_spec (closes : List ℚ) (h : 15 ≤ closes.length)
    (hl : specAvgLoss closes ≠ 0) :
    calculate_rsi (closes.map PFloat.fin) 14 (closes.length - 1)
      = .fin (specRSI closes) := by
  have hg := rollingMean_pipeline closes h PFloat.clipLower0 (fun d => max d 0)
    (fun d => rfl) rfl
  have hlo := rollingMean_pipeline closes h (fun d => d.clipUpper0.neg)
    (fun d => max (-d) 0)
    (fun d => by
      show PFloat.fin (-(min d 0)) = .fin (max (-d) 0)
      rw [neg_min_eq_max])
    rfl
  have h0g : 0 ≤ specAvgGain closes := by
    unfold specAvgGain
    apply div_nonneg _ (by norm_num)
    exact sum_max_nonneg _ _ (fun d => le_max_right d 0)
  have h0l : 0 ≤ specAvgLoss closes := by
    unfold specAvgLoss
    apply div_nonneg _ (by norm_num)
    exact sum_max_nonneg _ _ (fun d => le_max_right (-d) 0)
  have h1q : (1 : ℚ) + specAvgGain closes / specAvgLoss closes ≠ 0 := by
    have hq : 0 ≤ specAvgGain closes / specAvgLoss closes := div_nonneg h0g h0l
    intro heq
    linarith
  unfold calculate_rsi gains losses
  rw [hg, hlo]
  rw [show ((specWindow closes).map (fun d => max d 0)).sum / 14
      = specAvgGain closes from rfl,
    show ((specWindow closes).map (fun d => max (-d) 0)).sum / 14
      = specAvgLoss closes from rfl]
  rw [PFloat.div_fin_fin_of_ne _ _ hl, PFloat.add_fin_fin,
    PFloat.div_fin_fin_of_ne _ _ h1q, PFloat.sub_fin_fin]
  rfl

/-- Witness for C4: a 15-close alternating series 1,2,1,…,1; its average
gain and loss are both 1/2, so RS is 1 and the RSI is 50. -/
theorem rsi_matches_spec_witness :
    15 ≤ ([1, 2, 1, 2, 1, 2, 1, 2, 1, 2, 1, 2, 1, 2, 1] : List ℚ).length ∧
    specAvgLoss [1, 2, 1, 2, 1, 2, 1, 2, 1, 2, 1, 2, 1, 2, 1] ≠ 0 ∧
    calculate_rsi (([1, 2, 1, 2, 1, 2, 1, 2, 1, 2, 1, 2, 1, 2, 1] : List ℚ).map PFloat.fin)
      14 (([1, 2, 1, 2, 1, 2, 1, 2, 1, 2, 1, 2, 1, 2, 1] : List ℚ).length - 1)
      = .fin (specRSI [1, 2, 1, 2, 1, 2, 1, 2, 1, 2, 1, 2, 1, 2, 1]) ∧
    specRSI [1, 2, 1, 2, 1, 2, 1, 2, 1, 2, 1, 2, 1, 2, 1] = 50 := by
  have havg : specAvgLoss [1, 2, 1, 2, 1, 2, 1, 2, 1, 2, 1, 2, 1, 2, 1] ≠ 0 := by
    norm_num [specAvgLoss, specWindow, specDeltas, List.zipWith, max_def]
  refine ⟨by norm_num, havg, rsi_matches_spec _ (by norm_num) havg, ?_⟩
  norm_num [specRSI, specAvgGain, specAvgLoss, specWindow, specDeltas,
    List.zipWith, max_def]

/-! ## The run orchestrator (claims C8, C9) -/

lemma processBands_no_raise (sym : String) (snap : Snapshot) (net : NetResult)
    (hnet : net ≠ .raiseExn) :
    ∀ (idx : Nat) (bands : List Band), ∃ out,
      processBands sym snap net idx bands = Except.ok out := by
  intro idx bands
  induction bands generalizing idx with
  | nil => exact ⟨([], none), rfl⟩
  | cons b rest ih =>
    simp only [processBands]
    split_ifs with hb
    · cases net with
      | raiseExn => exact absurd rfl hnet
      | ok => exact ⟨_, rfl⟩
      | httpFail => exact ⟨_, rfl⟩
    · exact ih (idx + 1)

lemma processBands_hit (sym : String) (snap : Snapshot) (net : NetResult)
    (hnet : net ≠ .raiseExn) :
    ∀ (idx : Nat) (bands : List Band), bandHit snap.price bands = true →
      ∃ j q, processBands sym snap net idx bands
        = Except.ok ([Event.notify sym j q, Event.journal sym j q], some j) := by
  intro idx bands
  induction bands generalizing idx with
  | nil =>
    intro hh
    simp [bandHit] at hh
  | cons b rest ih =>
    intro hh
    simp only [processBands]
    split_ifs with hb
    · cases net with
      | raiseExn => exact absurd rfl hnet
      | ok => exact ⟨idx, b.qty, rfl⟩
      | httpFail => exact ⟨idx, b.qty, rfl⟩
    · apply ih (idx + 1)
      simp only [bandHit, List.any_cons, Bool.or_eq_true] at hh
      rcases hh with h | h
      · exact absurd h hb
      · simpa [bandHit] using h

lemma processBands_raise_hit (sym : String) (snap : Snapshot) :
    ∀ (idx : Nat) (bands : List Band), bandHit snap.price bands = true →
      ∃ j q, processBands sym snap .raiseExn idx bands
        = Except.error [Event.notify sym j q] := by
  intro idx bands
  induction bands generalizing idx with
  | nil =>
    intro hh
    simp [bandHit] at hh
  | cons b rest ih =>
    intro hh
    simp only [processBands]
    split_ifs with hb
    · exact ⟨idx, b.qty, rfl⟩
    · apply ih (idx + 1)
      simp only [bandHit, List.any_cons, Bool.or_eq_true] at hh
      rcases hh with h | h
      · exact absurd h hb
      · simpa [bandHit] using h

lemma processInstrument_no_raise (download : String → List PFloat)
    (net : String → NetResult) (inst : Instrument)
    (hnet : net inst.symbol ≠ .raiseExn) :
    ∃ evs, processInstrument download net inst = Except.ok evs := by
  cases hf : fetch_indicators (download inst.symbol) with
  | none => exact ⟨[Event.unavailable inst.symbol], by simp [processInstrument, hf]⟩
  | some snap =>
    obtain ⟨⟨evs0, st⟩, hout⟩ :=
      processBands_no_raise inst.symbol snap (net inst.symbol) hnet 1 inst.levels
    refine ⟨evs0 ++ [Event.statusLine inst.symbol st], ?_⟩
    simp [processInstrument, hf, hout]

lemma runInstruments_no_raise (download : String → List PFloat)
    (net : String → NetResult) (hnet : ∀ s, net s ≠ .raiseExn) :
    ∀ insts, ∃ evs, runInstruments download net insts = Except.ok evs := by
  intro insts
  induction insts with
  | nil => exact ⟨[], rfl⟩
  | cons inst rest ih =>
    obtain ⟨evs1, h1⟩ := processInstrument_no_raise download net inst (hnet inst.symbol)
    obtain ⟨evs2, h2⟩ := ih
    exact ⟨evs1 ++ evs2, by simp [runInstruments, h1, h2]⟩

lemma unavailable_in_run (download : String → List PFloat)
    (net : String → NetResult) (hnet : ∀ s, net s ≠ .raiseExn) :
    ∀ (insts : List Instrument) (evs : List Event),
      runInstruments download net insts = Except.ok evs →
      ∀ inst ∈ insts, fetch_indicators (download inst.symbol) = none →
        Event.unavailable inst.symbol ∈ evs := by
  intro insts
  induction insts with
  | nil =>
    intro evs h inst hmem
    simp at hmem
  | cons i rest ih =>
    intro evs h inst hmem hfetch
    obtain ⟨evs1, h1⟩ := processInstrument_no_raise download net i (hnet i.symbol)
    obtain ⟨evs2, h2⟩ := runInstruments_no_raise download net hnet rest
    have hevs : evs = evs1 ++ evs2 := by
      simp only [runInstruments] at h
      rw [h1, h2] at h
      exact (Except.ok.inj h).symm
    subst hevs
    rcases List.mem_cons.mp hmem with rfl | hmem2
    · have h1x : processInstrument download net inst
          = Except.ok [Event.unavailable inst.symbol] := by
        unfold processInstrument
        rw [hfetch]
      have he1 : evs1 = [Event.unavailable inst.symbol] := by
        rw [h1x] at h1
        exact (Except.ok.inj h1).symm
      rw [he1]
      simp
    · exact List.mem_append_right _ (ih evs2 h2 inst hmem2 hfetch)

/-- C8: with the notifier delivering (no transport exception), every run
completes (`"Run completed successfully"` prints); an instrument whose
data is unavailable produces its "Data unavailable" line and the loop
continues; and a two-instrument run with one unavailable and one matching
instrument yields exactly one notification, one journal row and one
unavailable line. -/
theorem unavailable_is_nonfatal (download : String → List PFloat)
    (net : String → NetResult) (hnet : ∀ s, net s ≠ .raiseExn) :
    (∀ insts, (runMain download net insts).2 = true) ∧
    (∀ insts inst, inst ∈ insts →
      fetch_indicators (download inst.symbol) = none →
      Event.unavailable inst.symbol ∈ (runMain download net insts).1) ∧
    (∀ (i1 i2 : Instrument) (snap : Snapshot),
      fetch_indicators (download i1.symbol) = none →
      fetch_indicators (download i2.symbol) = some snap →
      bandHit snap.price i2.levels = true →
      ((runMain download net [i1, i2]).1.countP Event.isNotify = 1 ∧
       (runMain download net [i1, i2]).1.countP Event.isJournal = 1 ∧
       (runMain download net [i1, i2]).1.countP Event.isUnavailable = 1 ∧
       (runMain download net [i1, i2]).2 = true)) := by
  refine ⟨?_, ?_, ?_⟩
  · intro insts
    obtain ⟨evs, h⟩ := runInstruments_no_raise download net hnet insts
    simp [runMain, h]
  · intro insts inst hmem hfetch
    obtain ⟨evs, h⟩ := runInstruments_no_raise download net hnet insts
    have hev : (runMain download net insts).1
        = Event.startBanner :: (evs ++ [Event.endBanner]) := by
      simp [runMain, h]
    rw [hev]
    exact List.mem_cons_of_mem _ (List.mem_append_left _
      (unavailable_in_run download net hnet insts evs h inst hmem hfetch))
  · intro i1 i2 snap h1 h2 hhit
    obtain ⟨j, q, hb⟩ := processBands_hit i2.symbol snap (net i2.symbol) (hnet i2.symbol)
      1 i2.levels hhit
    have hrun : runMain download net [i1, i2]
        = ([Event.startBanner, Event.unavailable i1.symbol, Event.notify i2.symbol j q,
            Event.journal i2.symbol j q, Event.statusLine i2.symbol (some j),
            Event.endBanner], true) := by
      simp [runMain, runInstruments, processInstrument, h1, h2, hb]
    rw [hrun]
    refine ⟨?_, ?_, ?_, rfl⟩ <;>
      simp [List.countP_cons, Event.isNotify, Event.isJournal, Event.isUnavailable]

lemma processBands_net_irrelevant (sym : String) (snap : Snapshot) :
    ∀ (idx : Nat) (bands : List Band),
      processBands sym snap .httpFail idx bands = processBands sym snap .ok idx bands := by
  intro idx bands
  induction bands generalizing idx with
  | nil => rfl
  | cons b rest ih =>
    simp only [processBands]
    split_ifs with hb
    · rfl
    · exact ih (idx + 1)

lemma processInstrument_net_irrelevant (download : String → List PFloat) (inst : Instrument) :
    processInstrument download (fun _ => NetResult.httpFail) inst
      = processInstrument download (fun _ => NetResult.ok) inst := by
  unfold processInstrument
  cases hf : fetch_indicators (download inst.symbol) with
  | none => rfl
  | some snap => simp only [processBands_net_irrelevant]

/-- C9 (amended): a delivery failure surfaced as an error HTTP response is
invisible to the script — the run is event-for-event identical to a
successful delivery (so nothing is logged, the journal row is still
written, and the remaining instruments are processed); but a delivery
failure raised as a transport exception propagates out of `send_telegram`:
the run aborts right after the post attempt, before the journal write for
that match, and no further instrument is processed. -/
theorem notifier_failure_behaviour (download : String → List PFloat) :
    (∀ insts, runMain download (fun _ => NetResult.httpFail) insts
      = runMain download (fun _ => NetResult.ok) insts) ∧
    (∀ (i : Instrument) (rest : List Instrument) (snap : Snapshot),
      fetch_indicators (download i.symbol) = some snap →
      bandHit snap.price i.levels = true →
      (runMain download (fun _ => NetResult.raiseExn) (i :: rest)).2 = false ∧
      ∃ j q, (runMain download (fun _ => NetResult.raiseExn) (i :: rest)).1
        = [Event.startBanner, Event.notify i.symbol j q]) := by
  constructor
  · intro insts
    induction insts with
    | nil => rfl
    | cons inst rest ih =>
      unfold runMain at ih ⊢
      simp only [runInstruments, processInstrument_net_irrelevant download inst]
      cases hp : processInstrument download (fun _ => NetResult.ok) inst with
      | error evs => rfl
      | ok evs =>
        cases h2 : runInstruments download (fun _ => NetResult.httpFail) rest with
        | error evs2 =>
          cases h3 : runInstruments download (fun _ => NetResult.ok) rest with
          | error evs3 =>
            rw [h2, h3] at ih
            simp_all
          | ok evs3 =>
            rw [h2, h3] at ih
            simp_all
        | ok evs2 =>
          cases h3 : runInstruments download (fun _ => NetResult.ok) rest with
          | error evs3 =>
            rw [h2, h3] at ih
            simp_all
          | ok evs3 =>
            rw [h2, h3] at ih
            simp_all
  · intro i rest snap hf hhit
    obtain ⟨j, q, hb⟩ := processBands_raise_hit i.symbol snap 1 i.levels hhit
    have hrun : runMain download (fun _ => NetResult.raiseExn) (i :: rest)
        = ([Event.startBanner, Event.notify i.symbol j q], false) := by
      simp [runMain, runInstruments, processInstrument, hf, hb]
    rw [hrun]
    exact ⟨rfl, j, q, rfl⟩

/-! ## Concrete runs for the witnesses -/

/-- A strictly increasing series of 50 daily closes 1, 2, …, 50: every
delta is a gain, the average loss is 0, and the RSI saturates at 100. -/
def s50 : List PFloat :=
  [.fin 1, .fin 2, .fin 3, .fin 4, .fin 5, .fin 6, .fin 7, .fin 8, .fin 9, .fin 10,
   .fin 11, .fin 12, .fin 13, .fin 14, .fin 15, .fin 16, .fin 17, .fin 18, .fin 19, .fin 20,
   .fin 21, .fin 22, .fin 23, .fin 24, .fin 25, .fin 26, .fin 27, .fin 28, .fin 29, .fin 30,
   .fin 31, .fin 32, .fin 33, .fin 34, .fin 35, .fin 36, .fin 37, .fin 38, .fin 39, .fin 40,
   .fin 41, .fin 42, .fin 43, .fin 44, .fin 45, .fin 46, .fin 47, .fin 48, .fin 49, .fin 50]

/-- The snapshot `fetch_indicators` computes on `s50`. -/
def snap50 : Snapshot :=
  { price := .fin 50, dma20 := .fin (81 / 2), dma50 := .fin (51 / 2),
    rsi := .fin 100, trend := .Bullish }

set_option maxHeartbeats 2000000 in
lemma fetch_s50 : fetch_indicators s50 = some snap50 := by
  norm_num [fetch_indicators, s50, snap50, calculate_rsi, rollingMeanAt, pmean, windowAt,
    diffList, gains, losses, PFloat.add, PFloat.sub, PFloat.neg, PFloat.div,
    PFloat.clipLower0, PFloat.clipUpper0, PFloat.lt, PFloat.le, PFloat.gt, PFloat.isna,
    mkTrend, max_def, min_def]

set_option maxHeartbeats 2000000 in
lemma losses_s50_mean : rollingMeanAt 14 (losses s50) (s50.length - 1) = .fin 0 := by
  norm_num [rollingMeanAt, pmean, windowAt, losses, diffList, s50, PFloat.add, PFloat.sub,
    PFloat.neg, PFloat.div, PFloat.clipUpper0, min_def]

set_option maxHeartbeats 2000000 in
lemma gains_s50_mean : rollingMeanAt 14 (gains s50) (s50.length - 1) = .fin 1 := by
  norm_num [rollingMeanAt, pmean, windowAt, gains, diffList, s50, PFloat.add, PFloat.sub,
    PFloat.neg, PFloat.div, PFloat.clipLower0, max_def]

/-- Witness for C5 on `s50`: the produced RSI is finite, within bounds,
and saturated at 100 because the average loss is 0 and average gain 1. -/
theorem rsi_bounded_and_saturates_witness :
    fetch_indicators s50 = some snap50 ∧
    rollingMeanAt 14 (losses s50) (s50.length - 1) = .fin 0 ∧
    rollingMeanAt 14 (gains s50) (s50.length - 1) = .fin 1 ∧
    (∃ q : ℚ, snap50.rsi = .fin q ∧ 0 ≤ q ∧ q ≤ 100) ∧
    snap50.rsi = .fin 100 :=
  ⟨fetch_s50, losses_s50_mean, gains_s50_mean,
   (rsi_bounded_and_saturates s50 snap50 fetch_s50).1,
   (rsi_bounded_and_saturates s50 snap50 fetch_s50).2 losses_s50_mean 1 gains_s50_mean
     (by norm_num)⟩

/-- Witness for C6 on `s50`: price 50 above DMA20 40.5 above DMA50 25.5,
so the trend is Bullish and the classification trichotomy holds. -/
theorem trend_classification_witness :
    fetch_indicators s50 = some snap50 ∧
    snap50.price = .fin 50 ∧ snap50.dma20 = .fin (81 / 2) ∧ snap50.dma50 = .fin (51 / 2) ∧
    ((snap50.trend = .Bullish ↔ ((81 / 2 : ℚ) < 50 ∧ (51 / 2 : ℚ) < 81 / 2)) ∧
     (snap50.trend = .Bearish ↔ ((50 : ℚ) < 81 / 2 ∧ (81 / 2 : ℚ) < 51 / 2)) ∧
     (snap50.trend = .Sideways ↔
       (¬((81 / 2 : ℚ) < 50 ∧ (51 / 2 : ℚ) < 81 / 2) ∧
        ¬((50 : ℚ) < 81 / 2 ∧ (81 / 2 : ℚ) < 51 / 2)))) :=
  ⟨fetch_s50, rfl, rfl, rfl,
   trend_classification s50 snap50 fetch_s50 50 (81 / 2) (51 / 2) rfl rfl rfl⟩

/-- Value-level check that a float is finite. -/
def PFloat.isFinB : PFloat → Bool
  | .fin _ => true
  | _ => false

lemma finOrNan_of_isFinB {x : PFloat} (h : x.isFinB = true) : FinOrNan x := by
  cases x with
  | fin q => exact Or.inr ⟨q, rfl⟩
  | nan => simp [PFloat.isFinB] at h
  | pinf => simp [PFloat.isFinB] at h
  | ninf => simp [PFloat.isFinB] at h

lemma s50_finOrNan : ∀ x ∈ s50, FinOrNan x := by
  intro x hx
  exact finOrNan_of_isFinB
    (List.all_eq_true.mp (show s50.all PFloat.isFinB = true from rfl) x hx)

/-- Witness for C7 on `s50`: the produced snapshot has all four numeric
fields finite. -/
theorem snapshot_fields_finite_witness :
    (∀ x ∈ s50, FinOrNan x) ∧ fetch_indicators s50 = some snap50 ∧
    ((∃ p, snap50.price = .fin p) ∧ (∃ a, snap50.dma20 = .fin a) ∧
     (∃ b, snap50.dma50 = .fin b) ∧ (∃ r, snap50.rsi = .fin r)) :=
  ⟨s50_finOrNan, fetch_s50, snapshot_fields_finite s50 snap50 s50_finOrNan fetch_s50⟩

/-- A band (40, 60, qty 5) that contains the price 50 of `snap50`. -/
def cBand : Band := ⟨40, 60, 5⟩

/-- Concrete instrument whose data will be unavailable. -/
def cInstA : Instrument := ⟨"AAA", "Alpha", "STOCK", [cBand]⟩

/-- Concrete instrument whose price hits its first band. -/
def cInstB : Instrument := ⟨"BBB", "Beta", "ETF", [cBand]⟩

/-- Market data for the C8 witness run: an empty (unavailable) series for
`AAA`, the full `s50` series for `BBB`. -/
def dlB : String → List PFloat := fun s => if s = "BBB" then s50 else []

lemma dlB_A : fetch_indicators (dlB cInstA.symbol) = none := by
  show fetch_indicators (if ("AAA" : String) = "BBB" then s50 else []) = none
  rw [if_neg (by decide)]
  simp [fetch_indicators]

lemma dlB_B : fetch_indicators (dlB cInstB.symbol) = some snap50 := by
  show fetch_indicators (if ("BBB" : String) = "BBB" then s50 else []) = some snap50
  rw [if_pos rfl]
  exact fetch_s50

lemma hitList : bandHit snap50.price [cBand] = true := by
  norm_num [bandHit, cBand, bandContains, snap50, PFloat.le]

/-- Witness for C8: run over `[AAA (unavailable), BBB (matching)]` with a
delivering notifier — exactly one notification, one journal row, one
unavailable line, and the run completes. -/
theorem unavailable_is_nonfatal_witness :
    (∀ s : String, (fun _ => NetResult.ok) s ≠ NetResult.raiseExn) ∧
    fetch_indicators (dlB cInstA.symbol) = none ∧
    fetch_indicators (dlB cInstB.symbol) = some snap50 ∧
    bandHit snap50.price cInstB.levels = true ∧
    ((runMain dlB (fun _ => NetResult.ok) [cInstA, cInstB]).1.countP Event.isNotify = 1 ∧
     (runMain dlB (fun _ => NetResult.ok) [cInstA, cInstB]).1.countP Event.isJournal = 1 ∧
     (runMain dlB (fun _ => NetResult.ok) [cInstA, cInstB]).1.countP Event.isUnavailable = 1 ∧
     (runMain dlB (fun _ => NetResult.ok) [cInstA, cInstB]).2 = true) :=
  ⟨fun _ h => NetResult.noConfusion h, dlB_A, dlB_B, hitList,
   (unavailable_is_nonfatal dlB (fun _ => NetResult.ok)
       (fun _ h => NetResult.noConfusion h)).2.2 cInstA cInstB snap50 dlB_A dlB_B hitList⟩

/-- Market data for the C9 runs: every symbol gets `s50`. -/
def dlAll : String → List PFloat := fun _ => s50

lemma dlAll_A : fetch_indicators (dlAll cInstA.symbol) = some snap50 := fetch_s50

/-- Counterexample to C9 as stated: instrument `AAA` matches its band, the
notification delivery fails by raising (a timeout or connection error in
`requests.post`, which `send_telegram` does not catch), and the run ABORTS
right after the post attempt — no failure is logged, the journal row for
the match is never written, and instrument `BBB` is never processed. -/
theorem notifier_failure_aborts_run :
    (runMain dlAll (fun _ => NetResult.raiseExn) [cInstA, cInstB]).1
      = [Event.startBanner, Event.notify "AAA" 1 5] ∧
    (runMain dlAll (fun _ => NetResult.raiseExn) [cInstA, cInstB]).2 = false := by
  have hb : processBands "AAA" snap50 NetResult.raiseExn 1 [cBand]
      = Except.error [Event.notify "AAA" 1 5] := by
    norm_num [processBands, bandContains, cBand, snap50, PFloat.le]
  constructor <;>
    simp [runMain, runInstruments, processInstrument, dlAll, fetch_s50, cInstA, cInstB, hb]

/-- Witness for the amended C9 on the raising-notifier run. -/
theorem notifier_failure_behaviour_witness :
    fetch_indicators (dlAll cInstA.symbol) = some snap50 ∧
    bandHit snap50.price cInstA.levels = true ∧
    ((runMain dlAll (fun _ => NetResult.raiseExn) (cInstA :: [cInstB])).2 = false ∧
     ∃ j q, (runMain dlAll (fun _ => NetResult.raiseExn) (cInstA :: [cInstB])).1
       = [Event.startBanner, Event.notify cInstA.symbol j q]) :=
  ⟨dlAll_A, hitList,
   (notifier_failure_behaviour dlAll).2 cInstA [cInstB] snap50 dlAll_A hitList⟩
